import Mathlib

/-!
Verification of the storage-mover core of the pilot repository
(`LSSTSiteInformation.py`, `movers/rucio_sitemover.py`,
`movers/storm_sitemover.py`) against its natural-language specification.

The Python sources are shallowly embedded: pure string and policy logic is
translated directly; the outcome of external commands, library calls and the
filesystem is abstracted by explicit oracle records passed as arguments;
Python exceptions are modelled with `Except`.  Python strings are `String`
(or `List Char` where character-level reasoning about `str.replace` is
needed), Python dictionaries are association lists, and `readpar`/`os.environ`
reads are passed in as parameters.
-/

/-- Python `needle in hay` on the character lists of two strings:
`pat` occurs as a contiguous substring of `s`.  Scans left to right. -/
def strContains (s pat : List Char) : Bool :=
  match s with
  | [] => pat.isEmpty
  | c :: cs => pat.isPrefixOf (c :: cs) || strContains cs pat

/-- Python `needle in hay` for `String`s (substring containment). -/
def pyIn (needle hay : String) : Bool :=
  strContains hay.toList needle.toList

/-- One step of Python `str.replace(pat, rep)` (replace ALL occurrences,
scanning left to right, non-overlapping), with explicit fuel so that the
recursion is structural.  `strReplace` below instantiates the fuel with the
length of the scanned list, which is always sufficient. -/
def strReplaceFuel (pat rep : List Char) : Nat → List Char → List Char
  | _, [] => []
  | 0, l => l
  | fuel + 1, c :: cs =>
    if pat.isPrefixOf (c :: cs) then
      rep ++ strReplaceFuel pat rep fuel (cs.drop (pat.length - 1))
    else
      c :: strReplaceFuel pat rep fuel cs

/-- Python `s.replace(pat, rep)`: replace every (left-to-right,
non-overlapping) occurrence of `pat` in `s` by `rep`. -/
def strReplace (pat rep s : List Char) : List Char :=
  strReplaceFuel pat rep s.length s

/-- A Python value as it appears in the result dictionaries returned by the
movers (string values, `None`, and integer file sizes). -/
inductive PyVal where
  | str (s : String)
  | pynone
  | nat (n : Nat)
deriving DecidableEq

/-- Translate an optional string field (such as `fspec.surl`) to the Python
value stored in a result dictionary (`None` when absent). -/
def PyVal.ofOpt : Option String → PyVal
  | none => .pynone
  | some s => .str s

/-- The two staging error codes of `PilotErrors` used by the rucio mover.
`PilotErrors.py` is not part of this repository; only the distinctness and
identity of the two constants matter here, so they are modelled as an
inductive type. -/
inductive PilotErrorCode where
  | stageInFailed
  | stageOutFailed
deriving DecidableEq

/-- A raised `PilotException`: its message and the `code=` keyword argument
(`none` when the `raise` site passes no explicit code). -/
structure PilotException where
  msg : String
  code : Option PilotErrorCode
deriving DecidableEq

/-- The Python exceptions that the modelled code can raise. -/
inductive PyErr where
  | nameError (n : String)
  | keyError (k : String)
  | indexError
  | pilot (e : PilotException)
deriving DecidableEq

/-- The text Python would render for an exception (quotation marks around
names are elided). -/
def pyErrText : PyErr → String
  | .nameError n => "global name " ++ n ++ " is not defined"
  | .keyError k => "KeyError: " ++ k
  | .indexError => "list index out of range"
  | .pilot e => e.msg

/-- Python `os.path.join(a, b)` for the cases arising here. -/
def pyOsPathJoin (a b : String) : String :=
  if b.startsWith "/" then b
  else if a.endsWith "/" || a == "" then a ++ b
  else a ++ "/" ++ b

/-- The per-file transfer descriptor handled by the movers
(`fspec` in the Python sources).  `replicas` entries are
`(rse, physical path)` pairs; the code reads `fspec.replicas[0][0]`. -/
structure FSpec where
  replicas : List (String × String)
  allowAllInputRSEs : Bool
  scope : String
  lfn : String
  ddmendpoint : String
  turl : String
  pfn : String
  surl : Option String
  guid : String
  storageId : Int
  cmtconfig : String
  filesize : Nat
  checksum : String
  checksumType : String
deriving DecidableEq

/-- A concrete `FSpec` with a non-empty replica list, used as sample input. -/
def sampleFSpec : FSpec where
  replicas := [("TRIUMF-LCG2_DATADISK", "srm://srm.triumf.ca/data/f1")]
  allowAllInputRSEs := false
  scope := "data17"
  lfn := "file1.root"
  ddmendpoint := "TRIUMF-LCG2_DATADISK"
  turl := "root://xrootd.triumf.ca//data/f1"
  pfn := "file1.root"
  surl := none
  guid := "abc-123"
  storageId := 0
  cmtconfig := "x86_64-slc6-gcc49-opt"
  filesize := 5
  checksum := "ad:12345678"
  checksumType := "adler32"

namespace LSSTSiteInformation

/-- `LSSTSiteInformation.setTier1Info` (LSSTSiteInformation.py:94-111): the
static cloud → `[PanDA site, backup queue]` table.  Every cloud except `"US"`
has the empty string in the backup-queue slot. -/
def setTier1Info : List (String × List String) :=
  [("CA", ["TRIUMF", ""]),
   ("CERN", ["CERN-PROD", ""]),
   ("DE", ["FZK-LCG2", ""]),
   ("ES", ["pic", ""]),
   ("FR", ["IN2P3-CC", ""]),
   ("IT", ["INFN-T1", ""]),
   ("ND", ["ARC", ""]),
   ("NL", ["SARA-MATRIX", ""]),
   ("OSG", ["BNL_CVMFS_1", ""]),
   ("RU", ["RRC-KI-T1", ""]),
   ("TW", ["Taiwan-LCG2", ""]),
   ("UK", ["RAL-LCG2", ""]),
   ("US", ["BNL_PROD", "BNL_PROD-condor"])]

/-- `getCloudList` (LSSTSiteInformation.py:88-92): the keys of the table. -/
def getCloudList : List String := setTier1Info.map Prod.fst

/-- `getTier1List` (LSSTSiteInformation.py:118-123): `tier1[cloud]`; raises
`KeyError` for a cloud absent from the table. -/
def getTier1List (cloud : String) : Except PyErr (List String) :=
  match setTier1Info.lookup cloud with
  | some l => .ok l
  | none => .error (.keyError cloud)

/-- `getTier1Name` (LSSTSiteInformation.py:113-116):
`getTier1List(cloud)[0]`. -/
def getTier1Name (cloud : String) : Except PyErr String := do
  let l ← getTier1List cloud
  match l with
  | [] => .error .indexError
  | x :: _ => .ok x

/-- `isTier1` (LSSTSiteInformation.py:58-69): scan every cloud and test
membership of `sitename` in its `[site, queue]` list.  The `.error` arm is
unreachable because the clouds scanned are exactly the table's keys. -/
def isTier1 (sitename : String) : Bool :=
  getCloudList.any fun cloud =>
    match getTier1List cloud with
    | .ok l => l.contains sitename
    | .error _ => false

/-- `isTier3` (LSSTSiteInformation.py:77-86); `ddm` is the queuedata field
read by `readpar('ddm')`, passed in as a parameter. -/
def isTier3 (ddm : String) : Bool := ddm == "local"

/-- `isTier2` (LSSTSiteInformation.py:71-75):
`not (isTier1(sitename) or isTier3())`. -/
def isTier2 (sitename : String) (ddm : String) : Bool :=
  !(isTier1 sitename || isTier3 ddm)

/-- One entry of the full (unlimited) queuedata dictionary: its `ddm`
endpoint list and its `cloud`. -/
structure QueuedataEntry where
  ddm : List String
  cloud : String
deriving DecidableEq

/-- `getCorrespondingCloud` (LSSTSiteInformation.py:167-182): first queue
whose `ddm` list contains the endpoint wins; `""` when none matches.  The
previously downloaded full queuedata dictionary is a parameter. -/
def getCorrespondingCloud (ddm : String)
    (dictionary : List (String × QueuedataEntry)) : String :=
  match dictionary.find? (fun q => q.2.ddm.contains ddm) with
  | some q => q.2.cloud
  | none => ""

/-- `getTier1Queuename` (LSSTSiteInformation.py:274-286): first queue whose
`panda_resource` (an optional attribute) equals the PanDA site id; `""`
when none matches. -/
def getTier1Queuename (pandaSiteID : String)
    (allQueuedataDict : List (String × Option String)) : String :=
  match allQueuedataDict.find? (fun q => q.2 == some pandaSiteID) with
  | some q => q.1
  | none => ""

/-- `getTier1Queue` (LSSTSiteInformation.py:184-212).  The two queuedata
dictionaries the source downloads are parameters.  In the `"WORLD"` branch
with a spacetoken lacking `"dst:"` the source logs
`!!WARNING!!4545!! No dst: found in spacetoken string` and sets
`cloud = ""`; it then unconditionally calls `getTier1Name(cloud)`. -/
def getTier1Queue (cloud : String) (spacetoken : String)
    (fullQueuedata : List (String × QueuedataEntry))
    (allQueuedataDict : List (String × Option String)) : Except PyErr String := do
  let cloud :=
    if cloud == "WORLD" && spacetoken != "" then
      if pyIn "dst:" spacetoken then
        getCorrespondingCloud (spacetoken.replace "dst:" "") fullQueuedata
      else
        ""
    else cloud
  let pandaSiteID ← getTier1Name cloud
  return getTier1Queuename pandaSiteID allQueuedataDict

/-- `allowAlternativeStageOut` (LSSTSiteInformation.py:288-309).
`flag` is the `flag` keyword (isAnalysisJob), `altStageOut` the requested
mode (`none` when the keyword is absent, i.e. the Python default `False`),
and `catchall` the queuedata field read by `readpar('catchall')`. -/
def allowAlternativeStageOut (flag : Bool) (altStageOut : Option String)
    (catchall : String) : Bool :=
  if altStageOut == some "off" then false
  else if altStageOut == some "on" then true
  else if pyIn "allow_alt_stageout" catchall && !flag then true
  else false

/-- `forceAlternativeStageOut` (LSSTSiteInformation.py:311-329). -/
def forceAlternativeStageOut (flag : Bool) (altStageOut : Option String)
    (objectstore : Bool) (catchall : String) : Bool :=
  if !objectstore then
    if altStageOut == some "force" then true
    else if pyIn "force_alt_stageout" catchall && !flag then true
    else false
  else false

end LSSTSiteInformation

namespace rucioSiteMover

/-- Outcome oracle for one rucio stage-in: the exit status of the external
`rucio download` command, whether the `stageInApi` library fallback raises
(and with what message), the exit status of the post-download `mv`, and the
size `os.path.getsize(dst)` would report for the staged file. -/
structure StageInOracle where
  cliExit : Nat
  apiError : Option String
  mvExit : Nat
  diskSize : Nat
deriving DecidableEq

/-- How many times each external mechanism ran during a modelled stage
operation: the transfer CLI, the `stageInApi`/`stageOutApi` library
fallback, and the post-download `mv`. -/
structure RunLog where
  cliCalls : Nat
  apiCalls : Nat
  mvCalls : Nat
deriving DecidableEq

/-- The success dictionary returned by `rucioSiteMover.stageIn`
(rucio_sitemover.py:130-132). -/
def stageInResult (fspec : FSpec) : List (String × PyVal) :=
  [("ddmendpoint", .str (match fspec.replicas with
      | [] => fspec.ddmendpoint
      | r :: _ => r.1)),
   ("surl", .pynone),
   ("pfn", .str fspec.lfn)]

/-- The success dictionary returned by `rucioSiteMover.stageOut`
(rucio_sitemover.py:194-196). -/
def stageOutResult (fspec : FSpec) : List (String × PyVal) :=
  [("ddmendpoint", .str fspec.ddmendpoint),
   ("surl", PyVal.ofOpt fspec.surl),
   ("pfn", .str fspec.lfn)]

/-- The filesize update at rucio_sitemover.py:127-128: `fspec.filesize` is
overwritten with the on-disk size only when `fspec.replicas` is empty
(`if not fspec.replicas:`). -/
def stageInSetFilesize (fspec : FSpec) (diskSize : Nat) : FSpec :=
  if fspec.replicas.isEmpty then { fspec with filesize := diskSize } else fspec

/-- The post-download relocation (rucio_sitemover.py:117-128): run the `mv`
command; on non-zero exit raise `PilotException(..., ERR_STAGEOUTFAILED)`,
otherwise perform the filesize update and return the success dictionary. -/
def stageInMovePhase (fspec : FSpec) (o : StageInOracle) (log : RunLog) :
    Except PyErr (List (String × PyVal) × FSpec) × RunLog :=
  let log := { log with mvCalls := log.mvCalls + 1 }
  if o.mvExit ≠ 0 then
    (.error (.pilot
      ⟨"stageIn failed -- could not move downloaded file to destination: ",
       some .stageOutFailed⟩), log)
  else
    let fspec := stageInSetFilesize fspec o.diskSize
    (.ok (stageInResult fspec, fspec), log)

/-- The stage-in control flow from rucio_sitemover.py:106-132, starting at
the execution of the already-built `rucio download` command: on non-zero
exit status, call `stageInApi` once; if that raises, raise
`PilotException(..., ERR_STAGEINFAILED)`; otherwise continue with the
relocation phase.  (This models the statements after line 104; they are
reachable only once the unbound name `job` at line 65 is repaired, see
`stageIn` below.) -/
def stageInFlow (fspec : FSpec) (o : StageInOracle) :
    Except PyErr (List (String × PyVal) × FSpec) × RunLog :=
  if o.cliExit ≠ 0 then
    match o.apiError with
    | some e =>
      (.error (.pilot ⟨"stageIn with API faied:  " ++ e, some .stageInFailed⟩),
       ⟨1, 1, 0⟩)
    | none => stageInMovePhase fspec o ⟨1, 1, 0⟩
  else
    stageInMovePhase fspec o ⟨1, 0, 0⟩

/-- The names bound in the scope of `rucioSiteMover.stageIn` when line 65
(`if job is not None:`) executes: the parameters and the locals assigned at
lines 60-63.  The assignment that would bind `job` (line 62) is commented
out. -/
def stageInScopeNames : List String :=
  ["self", "turl", "dst", "fspec", "trace_str_pattern", "trace_str", "site_name"]

/-- The module-level names of rucio_sitemover.py (its imports and the class
it defines). -/
def rucioModuleNames : List String :=
  ["BaseSiteMover", "tolog", "PilotErrors", "PilotException",
   "getstatusoutput", "dirname", "os", "rucioSiteMover"]

/-- A representative set of Python builtin names (none of the undefined
names examined here is a builtin). -/
def pythonBuiltinNames : List String :=
  ["None", "True", "False", "int", "str", "len", "Exception"]

/-- Python name resolution at line 65 of rucio_sitemover.py: a name
evaluates successfully iff it is bound in the function scope, the module
scope or the builtins. -/
def stageInResolves (n : String) : Bool :=
  (stageInScopeNames ++ rucioModuleNames ++ pythonBuiltinNames).contains n

/-- `rucioSiteMover.stageIn` (rucio_sitemover.py:50-132) from its entry:
lines 60-61 bind `trace_str_pattern` and `trace_str`; line 63 reads
`os.environ['SITE_NAME']` (a `KeyError` when unset); line 65 then evaluates
the name `job`, which resolves only if bound somewhere in scope; otherwise
a `NameError` is raised before any download command is built or executed. -/
def stageIn (env : String → Option String) (fspec : FSpec) (o : StageInOracle) :
    Except PyErr (List (String × PyVal) × FSpec) × RunLog :=
  match env "SITE_NAME" with
  | none => (.error (.keyError "SITE_NAME"), ⟨0, 0, 0⟩)
  | some _ =>
    if stageInResolves "job" then
      stageInFlow fspec o
    else
      (.error (.nameError "job"), ⟨0, 0, 0⟩)

/-- `rucioSiteMover.stageOut` (rucio_sitemover.py:182-196), from the
execution of the already-built `rucio upload` command: on non-zero exit the
function immediately raises `PilotException` with no `code=` argument; the
`stageOutApi` fallback at lines 188-192 is commented out and never runs. -/
def stageOut (fspec : FSpec) (cliExit : Nat) :
    Except PyErr (List (String × PyVal)) × RunLog :=
  if cliExit ≠ 0 then
    (.error (.pilot ⟨"stageOut failed -- rucio upload did not succeed: ", none⟩),
     ⟨1, 0, 0⟩)
  else
    (.ok (stageOutResult fspec), ⟨1, 0, 0⟩)

end rucioSiteMover

namespace stormSiteMover

/-- Outcome oracle for one storm stage-in: whether the WebDAV etag retrieval
raises and whether `os.symlink` raises. -/
structure StormOracle where
  etagError : Option String
  symlinkError : Option String
deriving DecidableEq

/-- The success dictionary returned by `stormSiteMover.stageIn`
(storm_sitemover.py:101-103). -/
def stageInResult (fspec : FSpec) : List (String × PyVal) :=
  [("checksum_type", .str fspec.checksumType),
   ("checksum", .str fspec.checksum),
   ("filesize", .nat fspec.filesize)]

/-- The success dictionary returned by `stormSiteMover.stageOut`
(storm_sitemover.py:130-132). -/
def stageOutResult (fspec : FSpec) : List (String × PyVal) :=
  [("checksum_type", .str fspec.checksumType),
   ("checksum", .str fspec.checksum),
   ("filesize", .nat fspec.filesize)]

/-- `stormSiteMover.stageIn` (storm_sitemover.py:41-103): etag retrieval and
symlink creation are abstracted by the oracle; each failure is rewrapped as
a `PilotException` without a code, and on success the checksum-shaped
dictionary is returned. -/
def stageIn (fspec : FSpec) (o : StormOracle) :
    Except PyErr (List (String × PyVal)) :=
  match o.etagError with
  | some e => .error (.pilot ⟨"Could not retrieve STORM WebDAV ETag: " ++ e, none⟩)
  | none =>
    match o.symlinkError with
    | some e => .error (.pilot ⟨"Could not create symlink: " ++ e, none⟩)
    | none => .ok (stageInResult fspec)

/-- The names bound in the scope of `stormSiteMover.stageOut` when line 122
(`shutil.move(src, dst)`) executes: the parameters and the locals `src` and
`dest` assigned at lines 116-117.  The computed target path is bound to
`dest`; no assignment binds `dst`. -/
def stageOutScopeNames : List String :=
  ["self", "source", "destination", "fspec", "src", "dest"]

/-- The module-level names of storm_sitemover.py. -/
def stormModuleNames : List String :=
  ["BaseSiteMover", "TimerCommand", "PilotException", "datetime", "minidom",
   "os", "shutil", "stormSiteMover"]

/-- Python name resolution inside `stormSiteMover.stageOut`. -/
def stageOutResolves (n : String) : Bool :=
  (stageOutScopeNames ++ stormModuleNames ++ rucioSiteMover.pythonBuiltinNames).contains n

/-- `stormSiteMover.stageOut` (storm_sitemover.py:105-132): compute `src`
and `dest`, then attempt `shutil.move(src, dst)`.  The name `dst` is bound
nowhere in scope, so evaluating it raises a `NameError`, which the
surrounding `except Exception` clause rewraps as a `PilotException`. -/
def stageOut (initDir : String) (fspec : FSpec) :
    Except PyErr (List (String × PyVal)) :=
  let src := fspec.lfn
  let dest := pyOsPathJoin initDir fspec.lfn
  let moveResult : Except PyErr Unit :=
    if stageOutResolves "dst" then .ok () else .error (.nameError "dst")
  match src, dest, moveResult with
  | _, _, .error e =>
    .error (.pilot ⟨"Could not move outputfile: " ++ pyErrText e, none⟩)
  | _, _, .ok _ => .ok (stageOutResult fspec)

end stormSiteMover

/-- The character list of the Python literal `'rucio'`. -/
def rucioStr : List Char := ['r', 'u', 'c', 'i', 'o']

/-- The character list of the Python literal `'/rucio'`. -/
def slashRucioStr : List Char := ['/', 'r', 'u', 'c', 'i', 'o']

/-- The character list of the Python literal `'rucio/'`. -/
def rucioSlashStr : List Char := ['r', 'u', 'c', 'i', 'o', '/']

/-- The character list of the Python literal `'/rucio/'`. -/
def slashRucioSlashStr : List Char := ['/', 'r', 'u', 'c', 'i', 'o', '/']

namespace LSSTSiteInformation

/-- `verifyRucioPath` (LSSTSiteInformation.py:403-423), as the string
transformation it applies to `spath` (the source stores the corrected
string back into the queuedata field and returns `None`; only the computed
string matters here).  `in` is substring containment, `endswith` is
list-suffix testing, and `replace` replaces every occurrence. -/
def verifyRucioPath (spath : List Char) : List Char :=
  if strContains spath rucioStr then
    if rucioStr.isSuffixOf spath then
      if slashRucioStr.isSuffixOf spath then spath
      else strReplace rucioStr slashRucioStr spath
    else if rucioSlashStr.isSuffixOf spath then
      if slashRucioSlashStr.isSuffixOf spath then strReplace rucioSlashStr rucioStr spath
      else strReplace rucioSlashStr slashRucioStr spath
    else spath
  else spath

end LSSTSiteInformation

/-- `pat` cannot overlap a shifted copy of itself: whenever `pat` is both a
prefix and a suffix of a list shorter than two copies of `pat`, that list is
`pat` itself.  This holds for `'rucio'` and `'rucio/'` and is what makes
every occurrence of those patterns consumed by a left-to-right scan. -/
def NoOverlap (pat : List Char) : Prop :=
  ∀ l : List Char, pat <+: l → pat <:+ l → l.length < 2 * pat.length → l = pat

/-- `"arucio/rucio/"`: a path on which `verifyRucioPath` is not idempotent. -/
def badRucioPath : List Char :=
  ['a', 'r', 'u', 'c', 'i', 'o', '/', 'r', 'u', 'c', 'i', 'o', '/']

/-- `"datarucio"`: a malformed path (ends in `rucio` without the slash)
inside the idempotence domain. -/
def okRucioPath : List Char :=
  ['d', 'a', 't', 'a', 'r', 'u', 'c', 'i', 'o']

/-- Claim C3: `forceAlternativeStageOut` is false whenever the destination is
an object store, and otherwise true exactly when the requested mode is
`"force"`, or the catchall directive contains `"force_alt_stageout"` and the
job is not an analysis job. -/
theorem forceAlternativeStageOut_spec (flag : Bool) (altStageOut : Option String)
    (objectstore : Bool) (catchall : String) :
    LSSTSiteInformation.forceAlternativeStageOut flag altStageOut objectstore catchall = true ↔
      objectstore = false ∧
        (altStageOut = some "force" ∨
          (pyIn "force_alt_stageout" catchall = true ∧ flag = false)) := by
  by_cases h : altStageOut = some "force" <;>
    cases objectstore <;> cases flag <;>
    simp_all [LSSTSiteInformation.forceAlternativeStageOut]

/-- Claim C4: `allowAlternativeStageOut` is false for mode `"off"`, true for
mode `"on"`, and otherwise true exactly when the catchall directive contains
`"allow_alt_stageout"` and the job is not an analysis job; in particular it
is false for an analysis job outside mode `"on"`. -/
theorem allowAlternativeStageOut_spec (flag : Bool) (altStageOut : Option String)
    (catchall : String) :
    LSSTSiteInformation.allowAlternativeStageOut flag altStageOut catchall = true ↔
      altStageOut ≠ some "off" ∧
        (altStageOut = some "on" ∨
          (pyIn "allow_alt_stageout" catchall = true ∧ flag = false)) := by
  by_cases hoff : altStageOut = some "off" <;>
    by_cases hon : altStageOut = some "on" <;>
    cases flag <;>
    simp_all [LSSTSiteInformation.allowAlternativeStageOut]

/-- Claim C10: the empty-string site name sits in the backup-queue slot of
every cloud except `"US"` in the static Tier-1 table, so `isTier1 ""` is
true, and consequently `isTier2 ""` is false whatever the queue's `ddm`
configuration. -/
theorem isTier1_empty_string :
    LSSTSiteInformation.isTier1 "" = true ∧
    ∀ ddm : String, LSSTSiteInformation.isTier2 "" ddm = false := by
  refine ⟨by decide, ?_⟩
  intro ddm
  simp [LSSTSiteInformation.isTier2,
    show LSSTSiteInformation.isTier1 "" = true by decide]

/-- Claim C1 (amended): when the primary `rucio download` command of a
rucio-mover stage-in exits non-zero, the `stageInApi` library fallback is
invoked exactly once; if the fallback raises, the operation fails with
`ERR_STAGEINFAILED`; if the fallback succeeds, no error is surfaced from the
download phase and the operation reports success once the relocation step
succeeds.  For stage-out, however, a non-zero exit of `rucio upload` raises
a `PilotException` immediately, with no error code and without invoking the
`stageOutApi` fallback (which is commented out in the source). -/
theorem rucio_mover_fallback_corrected (fspec : FSpec)
    (o : rucioSiteMover.StageInOracle) (h : o.cliExit ≠ 0) :
    (rucioSiteMover.stageInFlow fspec o).2.apiCalls = 1 ∧
    (∀ e, o.apiError = some e →
      (rucioSiteMover.stageInFlow fspec o).1 =
        .error (.pilot ⟨"stageIn with API faied:  " ++ e, some .stageInFailed⟩)) ∧
    (o.apiError = none → o.mvExit = 0 →
      (rucioSiteMover.stageInFlow fspec o).1 =
        .ok (rucioSiteMover.stageInResult (rucioSiteMover.stageInSetFilesize fspec o.diskSize),
             rucioSiteMover.stageInSetFilesize fspec o.diskSize)) ∧
    rucioSiteMover.stageOut fspec o.cliExit =
      (.error (.pilot ⟨"stageOut failed -- rucio upload did not succeed: ", none⟩),
       ⟨1, 0, 0⟩) := by
  refine ⟨?_, ?_, ?_, ?_⟩
  · rcases ho : o.apiError with _ | e
    · by_cases hmv : o.mvExit ≠ 0 <;>
        simp [rucioSiteMover.stageInFlow, rucioSiteMover.stageInMovePhase, h, ho, hmv]
    · simp [rucioSiteMover.stageInFlow, h, ho]
  · intro e he
    simp [rucioSiteMover.stageInFlow, h, he]
  · intro hapi hmv
    simp [rucioSiteMover.stageInFlow, rucioSiteMover.stageInMovePhase, h, hapi, hmv]
  · simp [rucioSiteMover.stageOut, h]

/-- Witness for C1's amended theorem at a failing CLI exit with a failing
fallback. -/
theorem rucio_mover_fallback_corrected_witness :
    ((1 : Nat) ≠ 0) ∧
    (rucioSiteMover.stageInFlow sampleFSpec ⟨1, some "boom", 0, 7⟩).2.apiCalls = 1 ∧
    (rucioSiteMover.stageInFlow sampleFSpec ⟨1, some "boom", 0, 7⟩).1 =
      .error (.pilot ⟨"stageIn with API faied:  boom", some .stageInFailed⟩) := by
  have h := rucio_mover_fallback_corrected sampleFSpec ⟨1, some "boom", 0, 7⟩ (by decide)
  exact ⟨by decide, h.1, by simpa using h.2.1 "boom" rfl⟩

/-- Counterexample for C1 as stated: for a rucio stage-out whose `rucio
upload` exits non-zero, the library fallback is invoked zero times, not
once, and the surfaced `PilotException` carries no error code rather than
`ERR_STAGEOUTFAILED`. -/
theorem rucio_stageOut_fallback_counterexample :
    (rucioSiteMover.stageOut sampleFSpec 1).2.apiCalls = 0 ∧
    (0 : Nat) ≠ 1 ∧
    (rucioSiteMover.stageOut sampleFSpec 1).1 =
      .error (.pilot ⟨"stageOut failed -- rucio upload did not succeed: ", none⟩) ∧
    (none : Option PilotErrorCode) ≠ some .stageOutFailed := by
  refine ⟨rfl, by decide, rfl, by decide⟩

/-- Claim C6 (amended): the two movers do not share a result shape.  For
both directions the rucio mover returns a mapping with exactly the keys
`ddmendpoint`, `surl`, `pfn`, while the storm mover returns a mapping with
exactly the keys `checksum_type`, `checksum`, `filesize`. -/
theorem mover_result_shape_amended (fspec : FSpec) :
    (rucioSiteMover.stageInResult fspec).map Prod.fst = ["ddmendpoint", "surl", "pfn"] ∧
    (rucioSiteMover.stageOutResult fspec).map Prod.fst = ["ddmendpoint", "surl", "pfn"] ∧
    (stormSiteMover.stageInResult fspec).map Prod.fst = ["checksum_type", "checksum", "filesize"] ∧
    (stormSiteMover.stageOutResult fspec).map Prod.fst = ["checksum_type", "checksum", "filesize"] := by
  refine ⟨rfl, rfl, rfl, rfl⟩

/-- Counterexample for C6 as stated: a successful storm stage-in returns a
mapping whose keys are not `ddmendpoint`, `surl`, `pfn`. -/
theorem mover_result_shape_counterexample :
    stormSiteMover.stageIn sampleFSpec ⟨none, none⟩ =
      .ok (stormSiteMover.stageInResult sampleFSpec) ∧
    (stormSiteMover.stageInResult sampleFSpec).map Prod.fst ≠
      ["ddmendpoint", "surl", "pfn"] := by
  refine ⟨rfl, by decide⟩

/-- Claim C7 (amended): after a successful rucio stage-in, `fspec.filesize`
is overwritten with the measured on-disk size exactly when `fspec.replicas`
is empty; when replicas were used the descriptor is left unchanged, its
metadata filesize included. -/
theorem stageIn_filesize_amended (fspec : FSpec) (diskSize : Nat) :
    (fspec.replicas ≠ [] →
      rucioSiteMover.stageInSetFilesize fspec diskSize = fspec) ∧
    (fspec.replicas = [] →
      (rucioSiteMover.stageInSetFilesize fspec diskSize).filesize = diskSize) := by
  constructor
  · intro h
    simp [rucioSiteMover.stageInSetFilesize, h]
  · intro h
    simp [rucioSiteMover.stageInSetFilesize, h]

/-- Witness for C7's amended theorem at a descriptor with a non-empty
replica list. -/
theorem stageIn_filesize_amended_witness :
    sampleFSpec.replicas ≠ [] ∧
    rucioSiteMover.stageInSetFilesize sampleFSpec 7 = sampleFSpec :=
  ⟨by decide, (stageIn_filesize_amended sampleFSpec 7).1 (by decide)⟩

/-- Counterexample for C7 as stated: with replicas present (metadata
filesize 5, on-disk size 7), the staged descriptor keeps filesize 5 — the
size is not measured from disk. -/
theorem stageIn_filesize_counterexample :
    sampleFSpec.replicas ≠ [] ∧
    (rucioSiteMover.stageInSetFilesize sampleFSpec 7).filesize = 5 ∧
    (5 : Nat) ≠ 7 := by
  refine ⟨by decide, rfl, by decide⟩

/-- Claim C8: `rucioSiteMover.stageIn` never reaches its download flow: it
always returns an exception with nothing executed, and whenever the
`SITE_NAME` environment lookup succeeds the exception is precisely the
`NameError` for the unbound name `job` (the assignment that would bind it is
commented out), so the success path and the CLI/API fallback logic are
unreachable. -/
theorem rucio_stageIn_nameError (env : String → Option String) (fspec : FSpec)
    (o : rucioSiteMover.StageInOracle) :
    (∀ r, (rucioSiteMover.stageIn env fspec o).1 ≠ .ok r) ∧
    ((env "SITE_NAME").isSome →
      rucioSiteMover.stageIn env fspec o = (.error (.nameError "job"), ⟨0, 0, 0⟩)) := by
  constructor
  · intro r
    rcases henv : env "SITE_NAME" with _ | s
    all_goals
      simp [rucioSiteMover.stageIn, henv,
        show rucioSiteMover.stageInResolves "job" = false by decide]
  · intro hsome
    rcases henv : env "SITE_NAME" with _ | s
    · rw [henv] at hsome; cases hsome
    · simp [rucioSiteMover.stageIn, henv,
        show rucioSiteMover.stageInResolves "job" = false by decide]

/-- Witness for C8 with an environment in which `SITE_NAME` is set. -/
theorem rucio_stageIn_nameError_witness :
    ((fun _ : String => some "LSST") "SITE_NAME").isSome = true ∧
    rucioSiteMover.stageIn (fun _ => some "LSST") sampleFSpec ⟨0, none, 0, 7⟩ =
      (.error (.nameError "job"), ⟨0, 0, 0⟩) :=
  ⟨rfl, (rucio_stageIn_nameError (fun _ => some "LSST") sampleFSpec ⟨0, none, 0, 7⟩).2 rfl⟩

/-- Claim C9: `stormSiteMover.stageOut` always raises a `PilotException`
reporting a failed move and never returns its success dictionary: the move
call references the undefined name `dst` (the computed target path is bound
to `dest`), and the resulting `NameError` is caught and rewrapped. -/
theorem storm_stageOut_always_raises (initDir : String) (fspec : FSpec) :
    stormSiteMover.stageOut initDir fspec =
      .error (.pilot ⟨"Could not move outputfile: " ++
        pyErrText (.nameError "dst"), none⟩) := by
  simp [stormSiteMover.stageOut,
    show stormSiteMover.stageOutResolves "dst" = false by decide]

/-- Claim C2 (amended): for `getTier1Queue` with cloud `"WORLD"` and a
non-empty spacetoken that does not contain `"dst:"`, the source logs the
warning `!!WARNING!!4545!!` and sets the cloud to the empty string; the
subsequent Tier-1 lookup `getTier1Name("")` then raises an uncaught
`KeyError` (the Tier-1 table has no `""` cloud), so the call raises instead
of returning an empty queue name. -/
theorem getTier1Queue_world_no_dst_raises (spacetoken : String)
    (fullQueuedata : List (String × LSSTSiteInformation.QueuedataEntry))
    (allQueuedataDict : List (String × Option String))
    (h1 : spacetoken ≠ "") (h2 : pyIn "dst:" spacetoken = false) :
    LSSTSiteInformation.getTier1Queue "WORLD" spacetoken fullQueuedata allQueuedataDict =
      .error (.keyError "") := by
  simp [LSSTSiteInformation.getTier1Queue, h1, h2,
    show LSSTSiteInformation.getTier1Name "" = .error (.keyError "") from rfl,
    Bind.bind, Except.bind]

/-- Witness for C2's amended theorem at the spacetoken of §8's scenario with
its `dst:` prefix stripped. -/
theorem getTier1Queue_world_no_dst_witness :
    ("SITE_B_DATADISK" : String) ≠ "" ∧
    pyIn "dst:" "SITE_B_DATADISK" = false ∧
    LSSTSiteInformation.getTier1Queue "WORLD" "SITE_B_DATADISK" [] [] =
      .error (.keyError "") :=
  ⟨by decide, by decide,
   getTier1Queue_world_no_dst_raises "SITE_B_DATADISK" [] [] (by decide) (by decide)⟩

/-- Counterexample for C2 as stated: at cloud `"WORLD"` with spacetoken
`"SITE_B_DATADISK"` the call raises a `KeyError` and in particular does not
return an empty queue name. -/
theorem strReplaceFuel_nil (pat rep : List Char) (fuel : Nat) :
    strReplaceFuel pat rep fuel [] = [] := by
  cases fuel <;> rfl

theorem strReplaceFuel_succ_cons (pat rep : List Char) (fuel : Nat) (c : Char)
    (cs : List Char) :
    strReplaceFuel pat rep (fuel + 1) (c :: cs) =
      if pat.isPrefixOf (c :: cs) then
        rep ++ strReplaceFuel pat rep fuel (cs.drop (pat.length - 1))
      else
        c :: strReplaceFuel pat rep fuel cs := rfl

/-- The fuel of `strReplaceFuel` is irrelevant as long as it dominates the
length of the scanned list. -/
theorem strReplaceFuel_congr (pat rep : List Char) :
    ∀ f₁ f₂ l, l.length ≤ f₁ → l.length ≤ f₂ →
      strReplaceFuel pat rep f₁ l = strReplaceFuel pat rep f₂ l := by
  intro f₁
  induction f₁ with
  | zero =>
    intro f₂ l h1 _
    have hl : l = [] := List.length_eq_zero.mp (Nat.le_zero.mp h1)
    subst hl
    simp [strReplaceFuel_nil]
  | succ f ih =>
    intro f₂ l h1 h2
    cases l with
    | nil => simp [strReplaceFuel_nil]
    | cons c cs =>
      cases f₂ with
      | zero => exact absurd h2 (by simp)
      | succ g =>
        rw [strReplaceFuel_succ_cons, strReplaceFuel_succ_cons]
        by_cases hp : pat.isPrefixOf (c :: cs)
        · rw [if_pos hp, if_pos hp]
          have hd : (cs.drop (pat.length - 1)).length ≤ cs.length := by
            simp [List.length_drop]
          have hcs1 : cs.length ≤ f := by simpa using h1
          have hcs2 : cs.length ≤ g := by simpa using h2
          rw [ih g _ (le_trans hd hcs1) (le_trans hd hcs2)]
        · rw [if_neg hp, if_neg hp]
          have hcs1 : cs.length ≤ f := by simpa using h1
          have hcs2 : cs.length ≤ g := by simpa using h2
          rw [ih g cs hcs1 hcs2]

/-- The one-step unfolding of `strReplace` on a non-empty list. -/
theorem strReplace_cons (pat rep : List Char) (c : Char) (cs : List Char) :
    strReplace pat rep (c :: cs) =
      if pat.isPrefixOf (c :: cs) then
        rep ++ strReplace pat rep (cs.drop (pat.length - 1))
      else
        c :: strReplace pat rep cs := by
  show strReplaceFuel pat rep (c :: cs).length (c :: cs) = _
  rw [List.length_cons, strReplaceFuel_succ_cons]
  by_cases hp : pat.isPrefixOf (c :: cs)
  · rw [if_pos hp, if_pos hp]
    have hd : (cs.drop (pat.length - 1)).length ≤ cs.length := by
      simp [List.length_drop]
    rw [strReplaceFuel_congr pat rep cs.length (cs.drop (pat.length - 1)).length _ hd le_rfl]
    rfl
  · rw [if_neg hp, if_neg hp]
    rfl

theorem strReplace_nil (pat rep : List Char) : strReplace pat rep [] = [] := rfl

theorem take_append_self (a b : List Char) : (a ++ b).take a.length = a := by
  induction a with
  | nil => rfl
  | cons x xs ih => simp [ih]

theorem drop_append_of_le {n : Nat} {a : List Char} (b : List Char)
    (h : n ≤ a.length) : (a ++ b).drop n = a.drop n ++ b := by
  induction a generalizing n with
  | nil =>
    have : n = 0 := by simpa using h
    subst this
    simp
  | cons x xs ih =>
    cases n with
    | zero => simp
    | succ m =>
      simp only [List.cons_append, List.drop_succ_cons]
      exact ih (by simpa using h)

/-- A suffix short enough to fit in the right part of an append is a suffix
of that right part. -/
theorem suffix_shrink {s a t : List Char} (h : s <:+ a ++ t)
    (hl : s.length ≤ t.length) : s <:+ t := by
  obtain ⟨w, hw⟩ := h
  have hwl : a.length ≤ w.length := by
    have hlen := congrArg List.length hw
    simp only [List.length_append] at hlen
    omega
  refine ⟨w.drop a.length, ?_⟩
  have h2 : ((w ++ s).drop a.length) = t := by rw [hw]; exact List.drop_left a t
  rwa [drop_append_of_le s hwl] at h2

theorem suffix_shrink_cons {s cs : List Char} {c : Char} (h : s <:+ c :: cs)
    (hl : s.length ≤ cs.length) : s <:+ cs :=
  suffix_shrink (a := [c]) (t := cs) h hl

theorem suffix_eq_of_length {s l : List Char} (h : s <:+ l)
    (hl : s.length = l.length) : s = l := by
  obtain ⟨w, hw⟩ := h
  have hw0 : w = [] := by
    have hlen := congrArg List.length hw
    simp only [List.length_append] at hlen
    exact List.length_eq_zero.mp (by omega)
  subst hw0
  simpa using hw

/-- If the head of a list matches `pat`, the scan of `strReplace` resumes
exactly at the remainder `t` of the decomposition `pat ++ t`. -/
theorem drop_of_head_match {pat t cs : List Char} {c : Char} (hne : pat ≠ [])
    (ht : pat ++ t = c :: cs) : cs.drop (pat.length - 1) = t := by
  cases pat with
  | nil => exact absurd rfl hne
  | cons p ps =>
    injection ht with h1 h2
    subst h2
    simp only [List.length_cons, Nat.add_sub_cancel]
    exact List.drop_left ps t

/-- A pattern without self-overlap, i.e. without a proper border: no proper
non-empty prefix of `pat` equals the suffix of `pat` of the same length. -/
theorem noOverlap_of_no_border (pat : List Char)
    (h : ∀ k, k < pat.length → 0 < k → pat.take k ≠ pat.drop (pat.length - k)) :
    NoOverlap pat := by
  intro l hpre hsuf hlen
  obtain ⟨t, ht⟩ := hpre
  rcases Decidable.em (t = []) with h0 | h0
  · subst h0; simpa using ht.symm
  · exfalso
    have htpos : 0 < t.length := List.length_pos.mpr h0
    have hlt : t.length < pat.length := by
      have hlen2 := congrArg List.length ht
      simp only [List.length_append] at hlen2
      omega
    obtain ⟨w, hw⟩ := hsuf
    have hwt : w.length = t.length := by
      have h1 := congrArg List.length ht
      have h2 := congrArg List.length hw
      simp only [List.length_append] at h1 h2
      omega
    have hdp : l.drop w.length = pat := by rw [← hw]; exact List.drop_left w pat
    rw [← ht, hwt, drop_append_of_le t (le_of_lt hlt)] at hdp
    have hk : (pat.drop t.length).length = pat.length - t.length := by
      simp [List.length_drop]
    have htake : pat.take (pat.length - t.length) = pat.drop t.length := by
      have h3 : (pat.drop t.length ++ t).take (pat.drop t.length).length =
          pat.drop t.length := take_append_self _ _
      rw [hdp, hk] at h3
      exact h3
    have hk2 : pat.length - (pat.length - t.length) = t.length := by omega
    exact h (pat.length - t.length) (by omega) (by omega) (by rw [hk2]; exact htake)

theorem rucioStr_no_overlap : NoOverlap rucioStr :=
  noOverlap_of_no_border _ (by decide)

theorem rucioSlashStr_no_overlap : NoOverlap rucioSlashStr :=
  noOverlap_of_no_border _ (by decide)

theorem strReplace_self (pat rep : List Char) (hne : pat ≠ []) :
    strReplace pat rep pat = rep := by
  cases pat with
  | nil => exact absurd rfl hne
  | cons p ps =>
    rw [strReplace_cons,
      if_pos (List.isPrefixOf_iff_prefix.mpr (List.prefix_refl (p :: ps)))]
    simp [List.drop_length, strReplace_nil]

/-- If `pat` has no self-overlap and is a suffix of `l`, the left-to-right
scan of `strReplace pat rep` replaces the final occurrence too, so the
result ends in `rep`. -/
theorem strReplace_suffix (pat rep : List Char) (hne : pat ≠ [])
    (hno : NoOverlap pat) :
    ∀ n l, l.length ≤ n → pat <:+ l → rep <:+ strReplace pat rep l := by
  intro n
  induction n with
  | zero =>
    intro l hlen hsuf
    have hl : l = [] := List.length_eq_zero.mp (Nat.le_zero.mp hlen)
    subst hl
    exact absurd (List.suffix_nil.mp hsuf) hne
  | succ n ih =>
    intro l hlen hsuf
    cases l with
    | nil => exact absurd (List.suffix_nil.mp hsuf) hne
    | cons c cs =>
      rw [strReplace_cons]
      by_cases hp : pat.isPrefixOf (c :: cs)
      · rw [if_pos hp]
        obtain ⟨t, ht⟩ := List.isPrefixOf_iff_prefix.mp hp
        rw [drop_of_head_match hne ht]
        rcases Decidable.em (t = []) with h0 | h0
        · subst h0
          rw [strReplace_nil]
          simp
        · rcases Nat.lt_or_ge t.length pat.length with hlt | hge
          · exfalso
            have hsz : (c :: cs).length < 2 * pat.length := by
              rw [← ht, List.length_append]; omega
            have hcp : (c :: cs) = pat := hno (c :: cs) ⟨t, ht⟩ hsuf hsz
            have h1 := congrArg List.length (ht.trans hcp)
            simp only [List.length_append] at h1
            exact h0 (List.length_eq_zero.mp (by omega))
          · have hst : pat <:+ t := by
              apply suffix_shrink (a := pat) (t := t) _ hge
              rwa [ht]
            have hlt2 : t.length ≤ n := by
              have h1 := congrArg List.length ht
              simp only [List.length_append, List.length_cons] at h1
              have hp1 : 0 < pat.length := List.length_pos.mpr hne
              simp only [List.length_cons] at hlen
              omega
            exact (ih t hlt2 hst).trans (List.suffix_append rep _)
      · rw [if_neg hp]
        have hle : pat.length ≤ cs.length := by
          rcases Nat.lt_or_ge cs.length pat.length with hl2 | hl2
          · exfalso
            have hle2 := hsuf.length_le
            simp only [List.length_cons] at hle2
            have heq : pat = c :: cs :=
              suffix_eq_of_length hsuf (by simp only [List.length_cons]; omega)
            exact hp (by rw [heq]; exact List.isPrefixOf_iff_prefix.mpr (List.prefix_refl _))
          · exact hl2
        have hcs : pat <:+ cs := suffix_shrink_cons hsuf hle
        have hlt2 : cs.length ≤ n := by
          simp only [List.length_cons] at hlen; omega
        exact (ih cs hlt2 hcs).trans (List.suffix_cons c _)

/-- Refinement of `strReplace_suffix` when `l` ends in `x :: pat` but not in
`pat ++ pat`: the character `x` just before the final occurrence survives
the scan, so the result ends in `x :: rep`. -/
theorem strReplace_suffix_cons (pat rep : List Char) (x : Char) (hne : pat ≠ [])
    (hno : NoOverlap pat) :
    ∀ n l, l.length ≤ n → (x :: pat) <:+ l → ¬ (pat ++ pat) <:+ l →
      (x :: rep) <:+ strReplace pat rep l := by
  intro n
  induction n with
  | zero =>
    intro l hlen hsuf _
    have hl : l = [] := List.length_eq_zero.mp (Nat.le_zero.mp hlen)
    subst hl
    exact absurd (List.suffix_nil.mp hsuf) (by simp)
  | succ n ih =>
    intro l hlen hsuf hnd
    cases l with
    | nil => exact absurd (List.suffix_nil.mp hsuf) (by simp)
    | cons c cs =>
      rw [strReplace_cons]
      by_cases hp : pat.isPrefixOf (c :: cs)
      · rw [if_pos hp]
        obtain ⟨t, ht⟩ := List.isPrefixOf_iff_prefix.mp hp
        rw [drop_of_head_match hne ht]
        have hpsuf : pat <:+ c :: cs :=
          List.IsSuffix.trans ⟨[x], rfl⟩ hsuf
        rcases Nat.lt_trichotomy t.length pat.length with hlt | heq | hgt
        · exfalso
          rcases Decidable.em (t = []) with h0 | h0
          · subst h0
            have hle2 := hsuf.length_le
            rw [← ht] at hle2
            simp only [List.length_cons, List.length_append, List.length_nil] at hle2
            omega
          · have hsz : (c :: cs).length < 2 * pat.length := by
              rw [← ht, List.length_append]
              have := List.length_pos.mpr h0
              omega
            have hcp : (c :: cs) = pat := hno (c :: cs) ⟨t, ht⟩ hpsuf hsz
            have h1 := congrArg List.length (ht.trans hcp)
            simp only [List.length_append] at h1
            exact h0 (List.length_eq_zero.mp (by omega))
        · exfalso
          have hpt : pat <:+ t := by
            apply suffix_shrink (a := pat) (t := t) _ (by omega)
            rwa [ht]
          have htp : pat = t := suffix_eq_of_length hpt (by omega)
          apply hnd
          rw [← ht, ← htp]
        · have hxt : (x :: pat) <:+ t := by
            apply suffix_shrink (a := pat) (t := t) _ (by simp only [List.length_cons]; omega)
            rwa [ht]
          have hnd2 : ¬ (pat ++ pat) <:+ t := fun hcon => by
            apply hnd
            rw [← ht]
            exact hcon.trans (List.suffix_append pat t)
          have hlt2 : t.length ≤ n := by
            have h1 := congrArg List.length ht
            simp only [List.length_append, List.length_cons] at h1
            have hp1 : 0 < pat.length := List.length_pos.mpr hne
            simp only [List.length_cons] at hlen
            omega
          exact (ih t hlt2 hxt hnd2).trans (List.suffix_append rep _)
      · rw [if_neg hp]
        have hle2 := hsuf.length_le
        simp only [List.length_cons] at hle2
        rcases Nat.lt_or_ge cs.length (pat.length + 1) with hl2 | hl2
        · have hxl : x :: pat = c :: cs :=
            suffix_eq_of_length hsuf (by simp only [List.length_cons]; omega)
          injection hxl with hc hcs
          subst hc
          rw [← hcs, strReplace_self pat rep hne]
        · have hxc : (x :: pat) <:+ cs :=
            suffix_shrink_cons hsuf (by simp only [List.length_cons]; omega)
          have hnd2 : ¬ (pat ++ pat) <:+ cs := fun hcon =>
            hnd (hcon.trans (List.suffix_cons c cs))
          have hlt2 : cs.length ≤ n := by
            simp only [List.length_cons] at hlen; omega
          exact (ih cs hlt2 hxc hnd2).trans (List.suffix_cons c _)

theorem strContains_iff {s pat : List Char} :
    strContains s pat = true ↔ pat <:+: s := by
  induction s with
  | nil => simp [strContains, List.isEmpty_iff, List.infix_nil]
  | cons c cs ih =>
    simp [strContains, ih, List.infix_cons_iff, List.isPrefixOf_iff_prefix]

theorem strContains_of_suffix {s pat : List Char} (h : pat <:+ s) :
    strContains s pat = true :=
  strContains_iff.mpr h.isInfix

/-- Any list ending in `'/rucio'` is a fixed point of `verifyRucioPath`. -/
theorem verifyRucioPath_fixed (r : List Char) (h : slashRucioStr <:+ r) :
    LSSTSiteInformation.verifyRucioPath r = r := by
  have hr : rucioStr <:+ r := List.IsSuffix.trans ⟨['/'], rfl⟩ h
  have h1 : strContains r rucioStr = true := strContains_of_suffix hr
  have h2 : rucioStr.isSuffixOf r = true := List.isSuffixOf_iff_suffix.mpr hr
  have h3 : slashRucioStr.isSuffixOf r = true := List.isSuffixOf_iff_suffix.mpr h
  simp [LSSTSiteInformation.verifyRucioPath, h1, h2, h3]

/-- Claim C5 (amended): the correction computed by `verifyRucioPath` is
idempotent on every path that does not end in `"rucio/rucio/"` — in
particular on paths ending in `"rucio"`, `"/rucio"`, a single `"rucio/"`,
and paths like `".../data/rucio/extra"`.  (On paths ending in
`"rucio/rucio/"` the `replace('rucio/', 'rucio')` pass merges the two
occurrences and a second application diverges; see the counterexample.) -/
theorem verifyRucioPath_idempotent_amended (s : List Char)
    (h : (rucioSlashStr ++ rucioSlashStr).isSuffixOf s = false) :
    LSSTSiteInformation.verifyRucioPath (LSSTSiteInformation.verifyRucioPath s) =
      LSSTSiteInformation.verifyRucioPath s := by
  by_cases hc : strContains s rucioStr
  case neg =>
    have hfix : LSSTSiteInformation.verifyRucioPath s = s := by
      simp [LSSTSiteInformation.verifyRucioPath, hc]
    simp only [hfix]
  case pos =>
    by_cases he1 : rucioStr.isSuffixOf s
    · by_cases he2 : slashRucioStr.isSuffixOf s
      · have hfix : LSSTSiteInformation.verifyRucioPath s = s := by
          simp [LSSTSiteInformation.verifyRucioPath, hc, he1, he2]
        simp only [hfix]
      · have hfix : LSSTSiteInformation.verifyRucioPath s =
            strReplace rucioStr slashRucioStr s := by
          simp [LSSTSiteInformation.verifyRucioPath, hc, he1, he2]
        have hsuf : slashRucioStr <:+ strReplace rucioStr slashRucioStr s :=
          strReplace_suffix rucioStr slashRucioStr (by decide) rucioStr_no_overlap
            s.length s le_rfl (List.isSuffixOf_iff_suffix.mp he1)
        rw [hfix, verifyRucioPath_fixed _ hsuf]
    · by_cases he3 : rucioSlashStr.isSuffixOf s
      · by_cases he4 : slashRucioSlashStr.isSuffixOf s
        · have hfix : LSSTSiteInformation.verifyRucioPath s =
              strReplace rucioSlashStr rucioStr s := by
            simp [LSSTSiteInformation.verifyRucioPath, hc, he1, he3, he4]
          have hnd : ¬ (rucioSlashStr ++ rucioSlashStr) <:+ s := fun hcon => by
            have hb : (rucioSlashStr ++ rucioSlashStr).isSuffixOf s = true :=
              List.isSuffixOf_iff_suffix.mpr hcon
            rw [h] at hb
            cases hb
          have hsuf : ('/' :: rucioStr) <:+ strReplace rucioSlashStr rucioStr s :=
            strReplace_suffix_cons rucioSlashStr rucioStr '/' (by decide)
              rucioSlashStr_no_overlap s.length s le_rfl
              (List.isSuffixOf_iff_suffix.mp he4) hnd
          rw [hfix, verifyRucioPath_fixed _ hsuf]
        · have hfix : LSSTSiteInformation.verifyRucioPath s =
              strReplace rucioSlashStr slashRucioStr s := by
            simp [LSSTSiteInformation.verifyRucioPath, hc, he1, he3, he4]
          have hsuf : slashRucioStr <:+ strReplace rucioSlashStr slashRucioStr s :=
            strReplace_suffix rucioSlashStr slashRucioStr (by decide)
              rucioSlashStr_no_overlap s.length s le_rfl
              (List.isSuffixOf_iff_suffix.mp he3)
          rw [hfix, verifyRucioPath_fixed _ hsuf]
      · have hfix : LSSTSiteInformation.verifyRucioPath s = s := by
          simp [LSSTSiteInformation.verifyRucioPath, hc, he1, he3]
        simp only [hfix]

/-- Witness for C5's amended theorem at the malformed path `"datarucio"`. -/
theorem verifyRucioPath_idempotent_witness :
    (rucioSlashStr ++ rucioSlashStr).isSuffixOf okRucioPath = false ∧
    LSSTSiteInformation.verifyRucioPath (LSSTSiteInformation.verifyRucioPath okRucioPath) =
      LSSTSiteInformation.verifyRucioPath okRucioPath :=
  ⟨by decide, verifyRucioPath_idempotent_amended okRucioPath (by decide)⟩

/-- Counterexample for C5 as stated: on the path `"arucio/rucio/"` (which
ends in `"rucio/"`) one application yields `"aruciorucio"` and a second
yields `"a/rucio/rucio"`, so applying the correction twice differs from
applying it once. -/
theorem verifyRucioPath_idempotent_counterexample :
    LSSTSiteInformation.verifyRucioPath badRucioPath =
      ['a', 'r', 'u', 'c', 'i', 'o', 'r', 'u', 'c', 'i', 'o'] ∧
    LSSTSiteInformation.verifyRucioPath (LSSTSiteInformation.verifyRucioPath badRucioPath) =
      ['a', '/', 'r', 'u', 'c', 'i', 'o', '/', 'r', 'u', 'c', 'i', 'o'] ∧
    LSSTSiteInformation.verifyRucioPath (LSSTSiteInformation.verifyRucioPath badRucioPath) ≠
      LSSTSiteInformation.verifyRucioPath badRucioPath := by
  refine ⟨by decide, by decide, by decide⟩

theorem getTier1Queue_world_no_dst_counterexample :
    LSSTSiteInformation.getTier1Queue "WORLD" "SITE_B_DATADISK" [] [] =
      .error (.keyError "") ∧
    LSSTSiteInformation.getTier1Queue "WORLD" "SITE_B_DATADISK" [] [] ≠ .ok "" := by
  refine ⟨rfl, ?_⟩
  intro hcontra
  rw [show LSSTSiteInformation.getTier1Queue "WORLD" "SITE_B_DATADISK" [] [] =
      .error (.keyError "") from rfl] at hcontra
  exact Except.noConfusion hcontra
